import Mathlib

/-!
Verification of the chat-streaming worker, the availability check and the
chat-panel submission guard of `roboswish.py`, against the repository's
specification. The worker `OllamaWorker.run` is embedded as a function from
the observable outcome of the HTTP request (an exception, or the sequence of
response lines) to the list of signal emissions it performs; the availability
check `check_ollama_available` and the sidebar's `send_message` are embedded
as pure functions on explicit state.
-/

set_option autoImplicit false

namespace Roboswish

/-- Python's `str.strip()` with no argument, as applied at lines 80-81 and
245: leading and trailing whitespace characters removed, the interior kept.
(Python strips the Unicode whitespace class; the claims only involve the
ASCII whitespace characters that `Char.isWhitespace` covers.) -/
def pyStrip (s : String) : String :=
  ⟨((s.data.dropWhile Char.isWhitespace).reverse.dropWhile Char.isWhitespace).reverse⟩

/-- One signal emission of the chat worker: `result s` mirrors
`self.result.emit(s)` and `error s` mirrors `self.error.emit(s)`
(`roboswish.py` lines 46-47, 74, 81, 83, 85, 88). -/
inductive Emission where
  | result (text : String)
  | error (reason : String)
  deriving DecidableEq

/-- Behaviour of the `message` field of one decoded chunk when the worker
evaluates `"message" in data and data["message"].get("content")` followed by
`full_content += data["message"]["content"]` (line 76-77):
`absent` — the object has no `"message"` key;
`raises` — the access raises (e.g. `data["message"]` is not a dict, so
`.get` raises `AttributeError`, or the retrieved content is truthy but not a
string so `+=` raises `TypeError`); the exception is caught by the per-line
handler (line 78);
`content x` — `data["message"]` is a dict and `.get("content")` returns the
optional string `x` (`none` models a missing/`None` content). A returned
empty string is falsy in Python, so nothing is appended for it. -/
inductive MsgField where
  | absent
  | raises
  | content (x : Option String)
  deriving DecidableEq

/-- One successfully decoded JSON object of the streamed response body.
`error` is `some e` when the object has an `"error"` key (key presence is what
line 73 tests; `e` is the printed form of `data["error"]`), `message`
describes the `message` field, `raw` is the printed form `{data}` of the
whole object as it appears in diagnostics (lines 74 and 83), and `otherKeys`
records whether the object has keys other than `"error"` and `"message"`
(never read by the worker, but they make the dict non-empty, hence truthy). -/
structure Chunk where
  error : Option String
  message : MsgField
  raw : String
  otherKeys : Bool
  deriving DecidableEq

/-- Python truthiness `bool(data)` of the decoded object, as tested by
`elif last_data:` (line 82): a decoded dict is truthy iff it is non-empty,
i.e. iff it has an `"error"` key, a `"message"` key (present in every
`MsgField` case except `absent`, including the `raises` case), or any other
key (`otherKeys`). The empty object `{}` is falsy. -/
def Chunk.truthy (c : Chunk) : Bool :=
  c.error.isSome || (match c.message with | .absent => false | _ => true) || c.otherKeys

/-- One line yielded by `r.iter_lines()` (line 66): falsy/empty lines are
skipped (line 67), a line may fail `json.loads` (lines 70, 78), or it decodes
to a `Chunk`. -/
inductive StreamLine where
  | empty
  | undecodable (s : String)
  | chunk (c : Chunk)
  deriving DecidableEq

/-- Observable outcome of the HTTP request issued by the worker
(lines 62-63): the three exception classes the spec names — connection
errors raised by `requests.post`, `raise_for_status` on a non-2xx status,
and timeout — all reach the same handler (lines 86-88); or a streamed body,
read as a finite sequence of lines. -/
inductive HttpOutcome where
  | connectError (desc : String)
  | statusError (desc : String)
  | timeoutError (desc : String)
  | stream (lines : List StreamLine)

/-- The streaming loop of `OllamaWorker.run` (lines 64-85), with the mutable
locals made explicit: `full_content` is the accumulator and `last_data` the
last decoded object. Returns the list of emissions performed from this point
on. An `error` key emits and returns at once (lines 73-75); at stream end the
three-way finalization of lines 80-85 runs, where `elif last_data:` is
Python truthiness: `last_data` must be set to a truthy (non-empty) object,
not merely set. -/
def stepLines : List StreamLine → String → Option Chunk → List Emission
  | [], full_content, last_data =>
    if pyStrip full_content ≠ "" then
      [.result (pyStrip full_content)]
    else
      match last_data with
      | some d =>
        if d.truthy then [.error ("[No valid response from Ollama]\nRaw: " ++ d.raw)]
        else [.error "[No response from Ollama]"]
      | none => [.error "[No response from Ollama]"]
  | .empty :: rest, full_content, last_data =>
    stepLines rest full_content last_data
  | .undecodable _ :: rest, full_content, last_data =>
    stepLines rest full_content last_data
  | .chunk c :: rest, full_content, _ =>
    match c.error with
    | some e => [.error ("[Ollama error: " ++ e ++ "]\nRaw: " ++ c.raw)]
    | none =>
      match c.message with
      | .content (some s) =>
        if s ≠ "" then stepLines rest (full_content ++ s) (some c)
        else stepLines rest full_content (some c)
      | _ => stepLines rest full_content (some c)

/-- `OllamaWorker.run` (lines 53-88): on a request exception the single
handler emits one error (line 88); otherwise the streaming loop runs with an
empty accumulator and no last-decoded object (lines 64-65). -/
def run (o : HttpOutcome) : List Emission :=
  match o with
  | .connectError e | .statusError e | .timeoutError e =>
    [.error ("[Error calling Ollama API: " ++ e ++ "]")]
  | .stream ls => stepLines ls "" none

/-- Whether a line is a decoded chunk carrying an `"error"` key. -/
def lineHasError : StreamLine → Bool
  | .chunk c => c.error.isSome
  | _ => false

/-- No line of the list decodes to an object with an `"error"` key. -/
def noErrorLines (ls : List StreamLine) : Bool :=
  ls.all fun l => !lineHasError l

/-- The accumulator produced by folding the lines of the stream exactly as
the loop does (mirrors lines 76-77 under the assumption that no `"error"`
chunk cut the loop short). -/
def accFrom (acc : String) : List StreamLine → String
  | [] => acc
  | .chunk c :: rest =>
    match c.message with
    | .content (some s) => if s ≠ "" then accFrom (acc ++ s) rest else accFrom acc rest
    | _ => accFrom acc rest
  | _ :: rest => accFrom acc rest

/-- The value of `last_data` after the loop: the last decoded chunk of the
list, or the incoming value when none decodes (mirrors line 71). -/
def lastDecodedFrom (last : Option Chunk) : List StreamLine → Option Chunk
  | [] => last
  | .chunk c :: rest => lastDecodedFrom (some c) rest
  | _ :: rest => lastDecodedFrom last rest

/-- A line that decodes to a pure content fragment `s` (no `"error"` key,
`message.content` present); `raw` is set to the fragment itself. -/
def contentLine (s : String) : StreamLine :=
  .chunk ⟨none, .content (some s), s, false⟩

/-- Whether `iter_lines` yielded a line that `json.loads` decoded. -/
def isDecodedLine : StreamLine → Bool
  | .chunk _ => true
  | _ => false

/-- Concatenation of a list of fragments in order. -/
def concatAll : List String → String
  | [] => ""
  | s :: rest => s ++ concatAll rest

/-- Python's substring operator `needle in hay` on strings: `needle` occurs
contiguously in `hay`. -/
def strContains (hay needle : String) : Bool :=
  hay.data.tails.any fun t => needle.data.isPrefixOf t

/-- One entry of the `models` array returned by the `/api/tags` endpoint;
`name` is `none` when the entry lacks a `"name"` key (the code reads it with
`m.get("name", "")`, line 383). -/
structure ModelEntry where
  name : Option String
  deriving DecidableEq

/-- Observable outcome of the `/api/tags` request of
`check_ollama_available` (line 380-382): a parsed `models` list, or any
exception (connection refused, malformed body, timeout), all reaching the
single handler of line 386. -/
inductive TagsOutcome where
  | ok (models : List ModelEntry)
  | exn (desc : String)

/-- `check_ollama_available` (lines 376-387) applied to the observable
outcome of its `/api/tags` request. -/
def check_ollama_available (model_name : String) (o : TagsOutcome) : Bool × Option String :=
  match o with
  | .ok tags =>
    if ¬ (tags.any fun m => strContains (m.name.getD "") model_name) then
      (false, some ("Model '" ++ model_name ++ "' not found in Ollama. Run: ollama pull "
        ++ model_name))
    else
      (true, none)
  | .exn e => (false, some ("Ollama API not reachable: " ++ e))

/-- The check run by `RoboSwish.check_ollama_status` at startup (lines
430-437): the body calls `check_ollama_available()` with no argument, so the
parameter default `model_name="llama2"` (line 376) is used. `configuredModel`
records the resolved `OLLAMA_MODEL` setting (line 34) that the chat worker
uses; the call site does not pass it. -/
def check_ollama_status_check (configuredModel : String) (o : TagsOutcome) : Bool × Option String :=
  check_ollama_available "llama2" o

/-- Observable state of `ChatSidebar` as far as `send_message` touches it:
the appended history entries (sender, message), the input line's text, the
enabled flags of the send button and input line, and the prompt of the
worker constructed and started for this submission (`none`: no worker). -/
structure ChatSidebarState where
  chat_history : List (String × String)
  chat_input : String
  send_btn_enabled : Bool
  chat_input_enabled : Bool
  worker : Option String
  deriving DecidableEq

/-- `ChatSidebar.send_message` (lines 244-257): the input is read and
stripped; an empty result returns at once (lines 245-247), otherwise the user
message is appended, the input cleared and disabled together with the send
button, the "Thinking..." placeholder appended, and a worker constructed and
started on the stripped text. -/
def send_message (s : ChatSidebarState) : ChatSidebarState :=
  let user_text := pyStrip s.chat_input
  if user_text = "" then s
  else
    { chat_history := s.chat_history ++ [("You", user_text), ("Robo", "<i>Thinking...</i>")]
      chat_input := ""
      send_btn_enabled := false
      chat_input_enabled := false
      worker := some user_text }

/-! Helper lemmas about the streaming loop. -/

/-- The loop emits exactly one signal whatever the remaining lines and the
current accumulator/last-decoded state are. -/
theorem stepLines_length (ls : List StreamLine) :
    ∀ (acc : String) (last : Option Chunk), (stepLines ls acc last).length = 1 := by
  induction ls with
  | nil =>
    intro acc last
    simp only [stepLines]
    split
    · rfl
    · cases last with
      | none => rfl
      | some d => cases hd : d.truthy <;> simp [hd]
  | cons l rest ih =>
    intro acc last
    cases l with
    | empty => simpa only [stepLines] using ih acc last
    | undecodable s => simpa only [stepLines] using ih acc last
    | chunk c =>
      cases hc : c.error with
      | some e => simp [stepLines, hc]
      | none =>
        cases hm : c.message with
        | absent => simpa only [stepLines, hc, hm] using ih acc (some c)
        | raises => simpa only [stepLines, hc, hm] using ih acc (some c)
        | content x =>
          cases x with
          | none => simpa only [stepLines, hc, hm] using ih acc (some c)
          | some s =>
            by_cases hs : s = ""
            · simpa only [stepLines, hc, hm, hs, ne_eq, not_true_eq_false,
                ite_false] using ih acc (some c)
            · simpa only [stepLines, hc, hm, ne_eq, hs, not_false_eq_true,
                ite_true] using ih (acc ++ s) (some c)

/-- Skipped lines (empty or undecodable) do not affect the loop: the result
over any line sequence equals the result over its decodable subsequence. -/
theorem stepLines_filter (ls : List StreamLine) :
    ∀ (acc : String) (last : Option Chunk),
      stepLines ls acc last = stepLines (ls.filter isDecodedLine) acc last := by
  induction ls with
  | nil => intro acc last; rfl
  | cons l rest ih =>
    intro acc last
    cases l with
    | empty =>
      simpa only [stepLines, List.filter_cons, isDecodedLine, ite_false] using ih acc last
    | undecodable s =>
      simpa only [stepLines, List.filter_cons, isDecodedLine, ite_false] using ih acc last
    | chunk c =>
      simp only [List.filter_cons, isDecodedLine, ite_true]
      cases hc : c.error with
      | some e => simp [stepLines, hc]
      | none =>
        cases hm : c.message with
        | absent => simpa only [stepLines, hc, hm] using ih acc (some c)
        | raises => simpa only [stepLines, hc, hm] using ih acc (some c)
        | content x =>
          cases x with
          | none => simpa only [stepLines, hc, hm] using ih acc (some c)
          | some s =>
            by_cases hs : s = ""
            · simpa only [stepLines, hc, hm, hs, ne_eq, not_true_eq_false,
                ite_false] using ih acc (some c)
            · simpa only [stepLines, hc, hm, ne_eq, hs, not_false_eq_true,
                ite_true] using ih (acc ++ s) (some c)

/-- On a line list without `"error"` chunks the loop runs to the end, and its
emission equals the finalization (`stepLines []`) applied to the folded
accumulator and the last decoded chunk. -/
theorem stepLines_noError (ls : List StreamLine) :
    ∀ (acc : String) (last : Option Chunk), noErrorLines ls = true →
      stepLines ls acc last = stepLines [] (accFrom acc ls) (lastDecodedFrom last ls) := by
  induction ls with
  | nil => intro acc last _; rfl
  | cons l rest ih =>
    intro acc last h
    rw [noErrorLines, List.all_cons, Bool.and_eq_true] at h
    obtain ⟨hl, hrest⟩ := h
    cases l with
    | empty => simpa only [stepLines, accFrom, lastDecodedFrom] using ih acc last hrest
    | undecodable s => simpa only [stepLines, accFrom, lastDecodedFrom] using ih acc last hrest
    | chunk c =>
      have hc : c.error = none := by
        cases hce : c.error with
        | none => rfl
        | some e => rw [lineHasError, hce] at hl; simp at hl
      cases hm : c.message with
      | absent =>
        simpa only [stepLines, accFrom, lastDecodedFrom, hc, hm] using ih acc (some c) hrest
      | raises =>
        simpa only [stepLines, accFrom, lastDecodedFrom, hc, hm] using ih acc (some c) hrest
      | content x =>
        cases x with
        | none =>
          simpa only [stepLines, accFrom, lastDecodedFrom, hc, hm] using ih acc (some c) hrest
        | some s =>
          by_cases hs : s = ""
          · simpa only [stepLines, accFrom, lastDecodedFrom, hc, hm, hs, ne_eq,
              not_true_eq_false, ite_false] using ih acc (some c) hrest
          · simpa only [stepLines, accFrom, lastDecodedFrom, hc, hm, ne_eq, hs,
              not_false_eq_true, ite_true] using ih (acc ++ s) (some c) hrest

/-- As soon as the loop reaches a chunk with an `"error"` key (all earlier
lines being error-free), the emission is the error-chunk failure, whatever
lines follow and whatever the current state is. -/
theorem stepLines_errorCut (c : Chunk) (e : String) (post : List StreamLine) :
    ∀ (pre : List StreamLine) (acc : String) (last : Option Chunk),
      noErrorLines pre = true → c.error = some e →
      stepLines (pre ++ StreamLine.chunk c :: post) acc last =
        [.error ("[Ollama error: " ++ e ++ "]\nRaw: " ++ c.raw)] := by
  intro pre
  induction pre with
  | nil => intro acc last _ hce; simp [stepLines, hce]
  | cons l pre ih =>
    intro acc last h hce
    rw [noErrorLines, List.all_cons, Bool.and_eq_true] at h
    obtain ⟨hl, hpre⟩ := h
    cases l with
    | empty => simpa only [List.cons_append, stepLines] using ih acc last hpre hce
    | undecodable s => simpa only [List.cons_append, stepLines] using ih acc last hpre hce
    | chunk d =>
      have hd : d.error = none := by
        cases hde : d.error with
        | none => rfl
        | some f => rw [lineHasError, hde] at hl; simp at hl
      cases hm : d.message with
      | absent =>
        simpa only [List.cons_append, stepLines, hd, hm] using ih acc (some d) hpre hce
      | raises =>
        simpa only [List.cons_append, stepLines, hd, hm] using ih acc (some d) hpre hce
      | content x =>
        cases x with
        | none =>
          simpa only [List.cons_append, stepLines, hd, hm] using ih acc (some d) hpre hce
        | some s =>
          by_cases hs : s = ""
          · simpa only [List.cons_append, stepLines, hd, hm, hs, ne_eq,
              not_true_eq_false, ite_false] using ih acc (some d) hpre hce
          · simpa only [List.cons_append, stepLines, hd, hm, ne_eq, hs,
              not_false_eq_true, ite_true] using ih (acc ++ s) (some d) hpre hce

/-- A list of pure content lines has no `"error"` chunk. -/
theorem noError_contentLines (fs : List String) :
    noErrorLines (fs.map contentLine) = true := by
  induction fs with
  | nil => rfl
  | cons f fs ih =>
    rw [List.map_cons, noErrorLines, List.all_cons, Bool.and_eq_true]
    exact ⟨rfl, ih⟩

/-- Folding pure content lines into the accumulator is concatenation of the
fragments in order. -/
theorem accFrom_contentLines (fs : List String) :
    ∀ acc : String, accFrom acc (fs.map contentLine) = acc ++ concatAll fs := by
  induction fs with
  | nil => intro acc; simp [accFrom, concatAll]
  | cons f fs ih =>
    intro acc
    by_cases hf : f = ""
    · subst hf
      simp only [List.map_cons, accFrom, contentLine, ne_eq, not_true_eq_false, ite_false,
        concatAll]
      rw [ih acc, String.empty_append]
    · simp only [List.map_cons, accFrom, contentLine, ne_eq, hf, not_false_eq_true, ite_true,
        concatAll]
      rw [ih (acc ++ f), String.append_assoc]

/-! The claims. -/

/-- C1 (counterexample): the claim says that whenever at least one line
decoded, stream end yields the "no valid response" failure referencing the
last decoded object. The stream consisting of the single decodable line
`{}` refutes it: the empty object decodes and becomes `last_data`, but
`elif last_data:` (line 82) tests Python truthiness and `bool({})` is
false, so the code emits the generic "[No response from Ollama]" instead. -/
theorem empty_object_generic_failure :
    run (.stream [StreamLine.chunk ⟨none, MsgField.absent, "\x7b\x7d", false⟩]) =
      [Emission.error "[No response from Ollama]"]
    ∧ run (.stream [StreamLine.chunk ⟨none, MsgField.absent, "\x7b\x7d", false⟩]) ≠
      [Emission.error ("[No valid response from Ollama]\nRaw: " ++ "\x7b\x7d")] :=
  ⟨by decide, by decide⟩

/-- C1 (amended): for every finite sequence of response lines with no
error-chunk emission, at stream end the worker emits exactly one of three
outcomes: the trimmed accumulator as a Success (`result`) when it is
non-empty; otherwise the "no valid response" failure referencing the last
decoded object when that last decoded object is truthy (a non-empty
object); otherwise (no line decoded at all, or the last decoded object is
the empty, falsy object) the generic "no response" failure. -/
theorem stream_end_trichotomy (ls : List StreamLine) (h : noErrorLines ls = true) :
    run (.stream ls) =
      if pyStrip (accFrom "" ls) ≠ "" then
        [Emission.result (pyStrip (accFrom "" ls))]
      else
        match lastDecodedFrom none ls with
        | some d =>
          if d.truthy then [Emission.error ("[No valid response from Ollama]\nRaw: " ++ d.raw)]
          else [Emission.error "[No response from Ollama]"]
        | none => [Emission.error "[No response from Ollama]"] := by
  show stepLines ls "" none = _
  rw [stepLines_noError ls "" none h]
  rfl

theorem stream_end_trichotomy_witness :
    noErrorLines [contentLine " hi "] = true
    ∧ run (.stream [contentLine " hi "]) = [Emission.result "hi"] := by
  refine ⟨by decide, ?_⟩
  rw [stream_end_trichotomy [contentLine " hi "] (by decide)]
  decide

/-- C2: a decoded chunk with an `error` key makes the worker emit one
Failure carrying the error payload and the raw object, and stop: the result
does not depend on any later line, and no further emission occurs (the
result is exactly that one-element emission list). -/
theorem error_chunk_stops_processing (pre : List StreamLine) (c : Chunk) (e : String)
    (post : List StreamLine) (hpre : noErrorLines pre = true) (he : c.error = some e) :
    run (.stream (pre ++ StreamLine.chunk c :: post)) =
      [Emission.error ("[Ollama error: " ++ e ++ "]\nRaw: " ++ c.raw)] := by
  show stepLines (pre ++ StreamLine.chunk c :: post) "" none = _
  exact stepLines_errorCut c e post pre "" none hpre he

theorem error_chunk_stops_processing_witness :
    noErrorLines [] = true
    ∧ Chunk.error ⟨some "model not found", MsgField.absent, "raw0", false⟩ = some "model not found"
    ∧ run (.stream ([] ++
          StreamLine.chunk ⟨some "model not found", MsgField.absent, "raw0", false⟩ ::
          [contentLine "ignored"])) =
        [Emission.error ("[Ollama error: " ++ "model not found" ++ "]\nRaw: " ++ "raw0")] :=
  ⟨rfl, rfl,
    error_chunk_stops_processing [] ⟨some "model not found", MsgField.absent, "raw0", false⟩
      "model not found" [contentLine "ignored"] rfl rfl⟩

/-- C3: every invocation of the worker's run — over any sequence of response
lines, and also when the HTTP request itself raises — emits exactly one
terminal outcome, never zero and never more than one. -/
theorem exactly_one_emission (o : HttpOutcome) : (run o).length = 1 := by
  cases o with
  | connectError d => rfl
  | statusError d => rfl
  | timeoutError d => rfl
  | stream ls => exact stepLines_length ls "" none

/-- C4 (counterexample): the fragment sequence `[" He", "llo "]` does not
yield `Success("He llo")` as the claim states: concatenation gives
`" Hello "`, whose trim is `"Hello"`. -/
theorem fragments_example_refuted :
    run (.stream [contentLine " He", contentLine "llo "]) = [Emission.result "Hello"]
    ∧ run (.stream [contentLine " He", contentLine "llo "]) ≠ [Emission.result "He llo"] :=
  ⟨by decide, by decide⟩

/-- C4 (amended): accumulation is order-preserving concatenation of the
fragments in arrival order, trimmed only once at finalization: every fragment
sequence whose concatenation trims to a non-empty string yields Success of
that trimmed concatenation; in particular `[" He", "llo "]` yields
`Success("Hello")` (edges trimmed, nothing trimmed per chunk) and
`["Hel", "lo"]` yields `Success("Hello")`. -/
theorem fragments_concat_trim_once :
    (∀ fs : List String, pyStrip (concatAll fs) ≠ "" →
      run (.stream (fs.map contentLine)) = [Emission.result (pyStrip (concatAll fs))])
    ∧ run (.stream [contentLine " He", contentLine "llo "]) = [Emission.result "Hello"]
    ∧ run (.stream [contentLine "Hel", contentLine "lo"]) = [Emission.result "Hello"] := by
  refine ⟨?_, by decide, by decide⟩
  intro fs h
  show stepLines (fs.map contentLine) "" none = _
  rw [stepLines_noError _ _ _ (noError_contentLines fs), accFrom_contentLines fs "",
    String.empty_append]
  simp only [stepLines, ne_eq, h, not_false_eq_true, ite_true]

theorem fragments_concat_trim_once_witness :
    pyStrip (concatAll ["Hel", "lo"]) ≠ ""
    ∧ run (.stream (["Hel", "lo"].map contentLine)) =
        [Emission.result (pyStrip (concatAll ["Hel", "lo"]))] :=
  ⟨by decide, fragments_concat_trim_once.1 ["Hel", "lo"] (by decide)⟩

/-- C5: an empty line, or a line that fails to decode as JSON, is skipped
without terminating the stream or affecting the outcome: each such line is a
no-op for the loop state, and the worker's result over the full line
sequence equals its result over the subsequence of decodable lines. -/
theorem undecodable_lines_skipped (ls : List StreamLine) :
    run (.stream ls) = run (.stream (ls.filter isDecodedLine))
    ∧ ∀ (s : String) (rest : List StreamLine) (acc : String) (last : Option Chunk),
        stepLines (StreamLine.undecodable s :: rest) acc last = stepLines rest acc last
        ∧ stepLines (StreamLine.empty :: rest) acc last = stepLines rest acc last := by
  refine ⟨?_, fun s rest acc last => ⟨rfl, rfl⟩⟩
  show stepLines ls "" none = stepLines (ls.filter isDecodedLine) "" none
  exact stepLines_filter ls "" none

/-- C6: the availability check returns `(true, none)` when some entry's
`name` contains the model name as a case-sensitive substring, a
`(false, not-found/pull detail)` when no entry matches, and
`(false, exception detail)` on any exception; in particular the model list
`["llama2:7b"]` matches `"llama2"` and rejects `"mistral"`. -/
theorem availability_check_contract :
    (∀ (model_name : String) (tags : List ModelEntry),
        (∃ m ∈ tags, strContains (m.name.getD "") model_name = true) →
        check_ollama_available model_name (.ok tags) = (true, none))
    ∧ (∀ (model_name : String) (tags : List ModelEntry),
        (∀ m ∈ tags, strContains (m.name.getD "") model_name = false) →
        check_ollama_available model_name (.ok tags) =
          (false, some ("Model '" ++ model_name ++ "' not found in Ollama. Run: ollama pull "
            ++ model_name)))
    ∧ (∀ (model_name e : String),
        check_ollama_available model_name (.exn e) =
          (false, some ("Ollama API not reachable: " ++ e)))
    ∧ check_ollama_available "llama2" (.ok [⟨some "llama2:7b"⟩]) = (true, none)
    ∧ (check_ollama_available "mistral" (.ok [⟨some "llama2:7b"⟩])).1 = false
    ∧ (check_ollama_available "mistral" (.ok [⟨some "llama2:7b"⟩])).2 =
        some ("Model '" ++ "mistral" ++ "' not found in Ollama. Run: ollama pull " ++ "mistral") := by
  refine ⟨?_, ?_, fun _ _ => rfl, by decide, by decide, by decide⟩
  · intro model_name tags h
    obtain ⟨m, hm, hmc⟩ := h
    have : tags.any (fun m => strContains (m.name.getD "") model_name) = true :=
      List.any_eq_true.mpr ⟨m, hm, hmc⟩
    simp [check_ollama_available, this]
  · intro model_name tags h
    have : tags.any (fun m => strContains (m.name.getD "") model_name) = false := by
      rw [List.any_eq_false]
      intro m hm
      simp [h m hm]
    simp [check_ollama_available, this]

theorem availability_check_contract_witness :
    (∃ m ∈ [ModelEntry.mk (some "llama2:7b")], strContains (m.name.getD "") "llama2" = true)
    ∧ check_ollama_available "llama2" (.ok [ModelEntry.mk (some "llama2:7b")]) = (true, none) :=
  ⟨by decide, availability_check_contract.1 "llama2" [ModelEntry.mk (some "llama2:7b")] (by decide)⟩

/-- C7: the claim says the startup check matches the configured model name
against the server's model list; the code instead calls
`check_ollama_available()` without an argument, so the default `"llama2"` is
always checked: with the configured model `"mistral"` and a server that only
reports `"llama2:7b"`, the startup check reports the model available, while
checking `"mistral"` itself reports it missing; the startup result is
independent of the configured name. -/
theorem startup_check_ignores_configured_model :
    check_ollama_status_check "mistral" (.ok [⟨some "llama2:7b"⟩]) = (true, none)
    ∧ (check_ollama_available "mistral" (.ok [⟨some "llama2:7b"⟩])).1 = false
    ∧ ∀ (m₁ m₂ : String) (o : TagsOutcome),
        check_ollama_status_check m₁ o = check_ollama_status_check m₂ o :=
  ⟨by decide, by decide, fun _ _ _ => rfl⟩

/-- C8: a connect error, a non-2xx HTTP status, and a timeout each surface
as the single Failure emission built from the exception description — one
emission, no Success, within the one attempt the worker makes (the code has
no retry path: each outcome is final). -/
theorem request_errors_single_failure (d : String) :
    run (.connectError d) = [Emission.error ("[Error calling Ollama API: " ++ d ++ "]")]
    ∧ run (.statusError d) = [Emission.error ("[Error calling Ollama API: " ++ d ++ "]")]
    ∧ run (.timeoutError d) = [Emission.error ("[Error calling Ollama API: " ++ d ++ "]")] :=
  ⟨rfl, rfl, rfl⟩

/-- C9: an exception raised while processing a decoded line (after
`json.loads` succeeded, e.g. a `message` field that is not an object) is
caught: the line contributes nothing to the accumulator and emits nothing,
processing continues with the next line, but the line still counts as
decoded — it updates the last-decoded reference (and its `message` key makes
the object non-empty, hence truthy), so it alone yields the "no valid
response" failure at stream end. -/
theorem line_exception_tolerated (c : Chunk) (h1 : c.error = none)
    (h2 : c.message = MsgField.raises) :
    (∀ (rest : List StreamLine) (acc : String) (last : Option Chunk),
        stepLines (StreamLine.chunk c :: rest) acc last = stepLines rest acc (some c))
    ∧ run (.stream [StreamLine.chunk c]) =
        [Emission.error ("[No valid response from Ollama]\nRaw: " ++ c.raw)] := by
  constructor
  · intro rest acc last
    simp only [stepLines, h1, h2]
  · have ht : c.truthy = true := by simp [Chunk.truthy, h2]
    show stepLines [StreamLine.chunk c] "" none = _
    simp only [stepLines, h1, h2, ht]
    rfl

theorem line_exception_tolerated_witness :
    Chunk.error ⟨none, MsgField.raises, "rawX", false⟩ = none
    ∧ Chunk.message ⟨none, MsgField.raises, "rawX", false⟩ = MsgField.raises
    ∧ stepLines [StreamLine.chunk ⟨none, MsgField.raises, "rawX", false⟩, contentLine "ok"]
          "" none =
        stepLines [contentLine "ok"] "" (some ⟨none, MsgField.raises, "rawX", false⟩)
    ∧ run (.stream [StreamLine.chunk ⟨none, MsgField.raises, "rawX", false⟩]) =
        [Emission.error ("[No valid response from Ollama]\nRaw: " ++ "rawX")] :=
  ⟨rfl, rfl,
    (line_exception_tolerated ⟨none, MsgField.raises, "rawX", false⟩ rfl rfl).1
      [contentLine "ok"] "" none,
    (line_exception_tolerated ⟨none, MsgField.raises, "rawX", false⟩ rfl rfl).2⟩

/-- C10: submitting chat input that is empty or whitespace-only is a
complete no-op of `send_message`: no history entry appended, input neither
cleared nor disabled, send button untouched, no worker constructed or
started — the whole panel state is unchanged. -/
theorem empty_input_noop (s : ChatSidebarState) (h : pyStrip s.chat_input = "") :
    send_message s = s := by
  simp [send_message, h]

theorem empty_input_noop_witness :
    pyStrip (ChatSidebarState.chat_input ⟨[("You", "hi")], " \t ", true, true, none⟩) = ""
    ∧ send_message ⟨[("You", "hi")], " \t ", true, true, none⟩ =
        ⟨[("You", "hi")], " \t ", true, true, none⟩ :=
  ⟨by decide, empty_input_noop ⟨[("You", "hi")], " \t ", true, true, none⟩ (by decide)⟩

end Roboswish
